import Mathlib

/-!
A shallow embedding of `src/placeholder.py` (a CLI that generates cached
placeholder JPEG images), together with theorems checking the repository's
specification against it.

Conventions of the embedding:
* Python `int` is `Int`; Python's floor division `//` is `Int.fdiv`
  (which agrees with `Int.ediv`, Lean's `/`, whenever the divisor is
  nonnegative — every division reachable in this program has a positive
  divisor).
* Pure predicates keep their source names (`validate_ratio`,
  `validate_hex_color`, `validate_range`, `dimmentions_from_ratio`,
  `placeholder_exists`).
* The filesystem visible to the program is the listing of the single
  `placeholders` output directory: a flag saying whether the directory
  exists plus the directory entries, each entry a name paired with a flag
  saying whether it is a regular file (`Path.is_file`).
* The PIL drawing primitives (`Image.new`, `ImageDraw.line`,
  `Image.filter`/`GaussianBlur`) are external library calls, not code of
  this repository; the renderer is therefore parameterised over an
  arbitrary implementation of those primitives (`PILOps`), and theorems
  about the renderer hold for every implementation.
-/

namespace Placeholder

/-- `BoundTuple = namedtuple("BoundTuple", ["lower", "upper"])`. -/
structure BoundTuple where
  lower : Int
  upper : Int
deriving DecidableEq, Repr

/-- `RGBTuple = namedtuple("RGBTuple", ["r", "g", "b"])`.
Channels are nonnegative machine integers, so `Nat`. -/
structure RGBTuple where
  r : Nat
  g : Nat
  b : Nat
deriving DecidableEq, Repr

/-- `RatioTuple = namedtuple("RatioTuple", ["width", "height"])`. -/
structure RatioTuple where
  width : Int
  height : Int
deriving DecidableEq, Repr

/-- The `BOUNDS` dict: keys `"width"`, `"height"`, `"ratio"`. -/
structure BoundsConfig where
  width : BoundTuple
  height : BoundTuple
  ratio : BoundTuple
deriving DecidableEq, Repr

/-- `BOUNDS = {"width": (32, 4000), "height": (32, 4000), "ratio": (1, 30)}`. -/
def BOUNDS : BoundsConfig :=
  { width := ⟨32, 4000⟩, height := ⟨32, 4000⟩, ratio := ⟨1, 30⟩ }

/-- `validate_range(value, bounds)`:
`return value >= bounds.lower and value <= bounds.upper`. -/
def validate_range (value : Int) (bounds : BoundTuple) : Bool :=
  decide (bounds.lower ≤ value) && decide (value ≤ bounds.upper)

/-- `validate_ratio(value)`. The argparse value of `--ratio` is either
absent (`None`, which fails the `isinstance(value, list)` check) or a list
of ints, hence the `Option (List Int)` argument. -/
def validate_ratio (value : Option (List Int)) : Bool :=
  match value with
  | none => false
  | some v =>
    if v.length ≠ 2 then false
    else v.all (fun x => validate_range x BOUNDS.ratio)

/-- The character class `[0-9a-fA-F]` of the hex-color regex. -/
def isHexDigit (c : Char) : Bool :=
  ('0' ≤ c && c ≤ '9') || ('a' ≤ c && c ≤ 'f') || ('A' ≤ c && c ≤ 'F')

/-- Whether a character list is fully matched by the regex pattern
`#` followed by a group of three-or-four hex digits repeated once or
twice.  One group gives 3 or 4 digits; two groups give 6, 7 or 8 digits
in total, so the digit count is 3, 4, 6, 7 or 8. -/
def reFullMatchHex (l : List Char) : Bool :=
  match l with
  | [] => false
  | c :: rest =>
    (c == '#') &&
      (rest.all isHexDigit &&
        (rest.length == 3 || rest.length == 4 || rest.length == 6 ||
          rest.length == 7 || rest.length == 8))

/-- One group of the hex-color regex: three or four hex digits. -/
def hexGroup (g : List Char) : Prop :=
  (∀ c ∈ g, isHexDigit c = true) ∧ (g.length = 3 ∨ g.length = 4)

/-- `validate_hex_color(value)`: truthiness of `re.match` of the anchored
pattern (`#`, then a group of three-or-four hex digits once or twice, then
the end-of-string anchor).  Python's end anchor also matches just before a
single newline that ends the string, so such a trailing newline is
tolerated. -/
def validate_hex_color (s : String) : Bool :=
  if s.data.getLast? = some '\n' then reFullMatchHex s.data.dropLast
  else reFullMatchHex s.data

/-- `dimmentions_from_ratio(ratio, base_dimmention=100)` (spelling of the
source).  The Python body reassigns `base_dimmention` across two `if`
statements; here the two successive values are the `let`s.  Python `//`
is floor division, `Int.fdiv`. -/
def dimmentions_from_ratio (ratio : RatioTuple) (base_dimmention : Int) : Int × Int :=
  let base1 :=
    if base_dimmention * ratio.width > BOUNDS.width.upper
    then Int.fdiv BOUNDS.width.upper ratio.width
    else base_dimmention
  let base2 :=
    if base1 * ratio.height > BOUNDS.height.upper
    then Int.fdiv BOUNDS.height.upper ratio.height
    else base1
  (base2 * ratio.width, base2 * ratio.height)

/-- The listing of the `placeholders` output directory as the program can
observe it: whether the path `is_dir()`, and for each entry of
`iterdir()` its `name` and whether it `is_file()`.  An absent directory is
`isDir = false` (with whatever stale entry list; `placeholder_exists`
never looks at entries in that case, mirroring the early `return False`
that avoids the `iterdir` call — which would raise on an absent
directory). -/
structure DirListing where
  isDir : Bool
  entries : List (String × Bool)
deriving DecidableEq, Repr

/-- The file name `f"{width}_x_{height}.jpg"`. -/
def fileName (width height : Int) : String :=
  toString width ++ "_x_" ++ toString height ++ ".jpg"

/-- `placeholder_exists(width, height, save_root)`:
`if not save_root.is_dir(): return False` then membership of the name in
the comprehension `[f.name for f in save_root.iterdir() if f.is_file()]`. -/
def placeholder_exists (width height : Int) (save_root : DirListing) : Bool :=
  if !save_root.isDir then false
  else
    (((save_root.entries.filter (fun f => f.2)).map (fun f => f.1)).contains
      (fileName width height))

/-- The RGB triple computed in `ImageGenerator.__init__`:
`RGBTuple(r=(color >> 16) & 0xFF, g=(color >> 8) & 0xFF, b=color & 0xFF)`.
`color` is the nonnegative int parsed from the hex string. -/
def colorFromInt (color : Nat) : RGBTuple :=
  ⟨(color >>> 16) &&& 0xFF, (color >>> 8) &&& 0xFF, color &&& 0xFF⟩

/-- The numeric value of one hex digit, as `int(..., 16)` assigns it. -/
def hexDigitVal (c : Char) : Nat :=
  if '0' ≤ c && c ≤ '9' then c.toNat - 48
  else if 'a' ≤ c && c ≤ 'f' then c.toNat - 87
  else if 'A' ≤ c && c ≤ 'F' then c.toNat - 55
  else 0

/-- Value of a string of hex digits, most significant first. -/
def hexListVal (l : List Char) : Nat :=
  l.foldl (fun acc c => 16 * acc + hexDigitVal c) 0

/-- The color argument as `main` parses it:
`int(args.color.replace("#", "0x"), 16)`.  For every string that reaches
this call (it passed `validate_hex_color`, so its only `#` is the leading
character, followed by hex digits) this is the hex value of the digits
after the `#`; a string with no leading `#` would be parsed as bare hex
digits. -/
def parsedColor (s : String) : Nat :=
  match s.data with
  | [] => hexListVal []
  | c :: rest => if c = '#' then hexListVal rest else hexListVal (c :: rest)

/-! ### The renderer (`ImageGenerator`)

The PIL bitmap type and its primitives are external; everything is
parameterised over them. -/

/-- The PIL primitives used by `ImageGenerator`, over an arbitrary bitmap
type `B`: `Image.new(mode, size, color)`, `ImageDraw.line(xy, fill,
width)` (modelled functionally: it returns the updated bitmap),
`Image.filter(GaussianBlur(radius))`, and the `width`/`height`
accessors. -/
structure PILOps (B : Type) where
  new : Int → Int → RGBTuple → B
  line : B → Int × Int × Int × Int → RGBTuple → Int → B
  gaussianBlur : Int → B → B
  width : B → Int
  height : B → Int

/-- The state of an `ImageGenerator` instance: the fields set in
`__init__` plus the working bitmap `image` (initially `None`) and the
`save_root` path (as a posix string). -/
structure ImageGenerator (B : Type) where
  width : Int
  height : Int
  color : RGBTuple
  image : Option B
  save_root : String

/-- `ImageGenerator.__init__(width, height, color, save_root)`; `color`
is the parsed 24-bit-and-above integer, split into channels by
`colorFromInt`. -/
def ImageGenerator.init (B : Type) (width height : Int) (color : Nat)
    (save_root : String) : ImageGenerator B :=
  ⟨width, height, colorFromInt color, none, save_root⟩

/-- The `inverted_color` property: each channel replaced by `255 -
channel`. -/
def inverted_color {B : Type} (g : ImageGenerator B) : RGBTuple :=
  ⟨255 - g.color.r, 255 - g.color.g, 255 - g.color.b⟩

/-- `_setup_frame`: `self.image = Image.new("RGB", (w, h), self.color)`. -/
def setup_frame {B : Type} (ops : PILOps B) (g : ImageGenerator B) :
    ImageGenerator B :=
  { g with image := some (ops.new g.width g.height g.color) }

/-- `_setup_cross`: two diagonal lines in the inverted color, stroke
width 2 if the image width is under 1000 and 3 otherwise.  If `image` is
still `None` the Python code would raise; that state is unreachable from
`start`, and the model leaves the generator unchanged there. -/
def setup_cross {B : Type} (ops : PILOps B) (g : ImageGenerator B) :
    ImageGenerator B :=
  match g.image with
  | none => g
  | some im =>
    let strokeWidth : Int := if ops.width im < 1000 then 2 else 3
    let im1 := ops.line im (0, 0, g.width, g.height) (inverted_color g) strokeWidth
    let im2 := ops.line im1 (0, g.height, g.width, 0) (inverted_color g) strokeWidth
    { g with image := some im2 }

/-- `_smoothen_image`: `self.image.filter(ImageFilter.GaussianBlur(radius=1))`.
The filtered bitmap is computed but never assigned back to `self.image`
— exactly as in the source, the result of the call is discarded and the
generator state is returned unchanged. -/
def smoothen_image {B : Type} (ops : PILOps B) (g : ImageGenerator B) :
    ImageGenerator B :=
  let _ := g.image.map (ops.gaussianBlur 1)
  g

/-- `_save_image`: the save path
`f"{save_root}/{image.width}_x_{image.height}.jpg"` together with the
bitmap written there (`none` if `image` is still `None`, where Python
would raise — unreachable from `start`). -/
def save_image {B : Type} (ops : PILOps B) (g : ImageGenerator B) :
    Option (String × B) :=
  g.image.map (fun im =>
    (g.save_root ++ "/" ++ fileName (ops.width im) (ops.height im), im))

/-- `start`: frame, cross, blur pass, save.  Returns the final generator
state and the performed save (path and bitmap). -/
def ImageGenerator.start {B : Type} (ops : PILOps B) (g : ImageGenerator B) :
    ImageGenerator B × Option (String × B) :=
  let g1 := setup_frame ops g
  let g2 := setup_cross ops g1
  let g3 := smoothen_image ops g2
  (g3, save_image ops g3)

/-! ### The entry point (`main`) -/

/-- The parsed argparse namespace reaching the body of `main`.
`option` is the positional mode string (the `StrEnum` values are
`"size"` and `"ratio"`); `width`/`height` are `None` when the flag is
absent; `ratio` is `None` when absent, else the list of parsed ints;
`color` is the raw string (default `"#96b08a"`). -/
structure Args where
  option : String
  width : Option Int
  height : Option Int
  ratio : Option (List Int)
  color : String
deriving DecidableEq, Repr

/-- The dimension-resolution phase of `main`: the `match args.option`
statement.  `none` is a validation failure (`return 1`).
In SIZE mode, Python first tests the truthiness of
`args.width and args.height` (absent or zero fails as "Missing width or
height"), then range-validates both.  In RATIO mode it runs
`validate_ratio` and then resolves via `dimmentions_from_ratio` with the
default base 100; the `except IndexError` arm is unreachable once
`validate_ratio` guarantees two elements, and corresponds to the final
catch-all `none`.  Any other mode string hits the `case _` arm. -/
def mainDims (a : Args) : Option (Int × Int) :=
  if a.option = "size" then
    match a.width, a.height with
    | some w, some h =>
      if w = 0 ∨ h = 0 then none
      else if !(validate_range w BOUNDS.width && validate_range h BOUNDS.height)
      then none
      else some (w, h)
    | _, _ => none
  else if a.option = "ratio" then
    if !validate_ratio a.ratio then none
    else
      match a.ratio with
      | some (rw :: rh :: _) => some (dimmentions_from_ratio ⟨rw, rh⟩ 100)
      | _ => none
  else none

/-- Outcome of one invocation of `main`: the value returned by the
function (`1` on validation failure, success otherwise — modelled as
exit code `0`), the names of the files written into the `placeholders`
directory during the run, and the directory's state afterwards. -/
structure RunResult where
  exit : Nat
  written : List String
  dir : DirListing
deriving DecidableEq, Repr

/-- The body of `main` after argument parsing, over the state `d` of the
`placeholders` directory: resolve dimensions per mode (any failure:
`return 1`), validate the color (failure: `return 1`),
`mkdir(exist_ok=True)` the placeholders directory, short-circuit with
success if `placeholder_exists`, otherwise run the generator, which
writes `{width}_x_{height}.jpg` into the directory. -/
def main (a : Args) (d : DirListing) : RunResult :=
  match mainDims a with
  | none => ⟨1, [], d⟩
  | some (w, h) =>
    if !validate_hex_color a.color then ⟨1, [], d⟩
    else
      let d1 : DirListing := ⟨true, d.entries⟩
      if placeholder_exists w h d1 then ⟨0, [], d1⟩
      else ⟨0, [fileName w h], ⟨true, d1.entries ++ [(fileName w h, true)]⟩⟩

/-- SIZE-mode argument vector: `placeholder.py size --width w --height h -c c`. -/
def sizeArgs (w h : Int) (c : String) : Args :=
  ⟨"size", some w, some h, none, c⟩

/-! ### Spec-side definitions (for refinement comparisons only)

These two definitions follow the specification's words, not the source;
they exist to be compared against the source-derived definitions above. -/

/-- The claim's description of `validate_hex_color`: the string is the
character `#` followed by exactly 3, 4, 6, or 8 hexadecimal digits. -/
def claimHexSpec (s : String) : Bool :=
  match s.data with
  | '#' :: rest =>
    rest.all isHexDigit &&
      (rest.length == 3 || rest.length == 4 || rest.length == 6 ||
        rest.length == 8)
  | _ => false

/-- The spec's description of the color denoted by an accepted hex
string: an RGB triple where shorthand 3- and 4-digit forms are expanded
to their full 24-bit value (each digit doubled, so digit `d` becomes the
channel `17 * d`), and the trailing alpha digits of the 4- and 8-digit
forms are ignored.  `none` on strings outside those four forms. -/
def specDenotedColor (s : String) : Option RGBTuple :=
  match s.data with
  | '#' :: ds =>
    if ds.all isHexDigit then
      match ds with
      | [r, g, b] =>
        some ⟨17 * hexDigitVal r, 17 * hexDigitVal g, 17 * hexDigitVal b⟩
      | [r, g, b, _] =>
        some ⟨17 * hexDigitVal r, 17 * hexDigitVal g, 17 * hexDigitVal b⟩
      | [r1, r2, g1, g2, b1, b2] =>
        some ⟨16 * hexDigitVal r1 + hexDigitVal r2,
              16 * hexDigitVal g1 + hexDigitVal g2,
              16 * hexDigitVal b1 + hexDigitVal b2⟩
      | [r1, r2, g1, g2, b1, b2, _, _] =>
        some ⟨16 * hexDigitVal r1 + hexDigitVal r2,
              16 * hexDigitVal g1 + hexDigitVal g2,
              16 * hexDigitVal b1 + hexDigitVal b2⟩
      | _ => none
    else none
  | _ => none

/-- The failure conditions of `main`'s validation phase, as the error
taxonomy enumerates them: missing (or Python-falsy) dimension argument in
SIZE mode, dimension out of bounds, malformed or out-of-bound ratio,
unrecognized mode, malformed color. -/
def validationFails (a : Args) : Prop :=
  (a.option = "size" ∧
    match a.width, a.height with
    | some w, some h =>
      w = 0 ∨ h = 0 ∨
        ¬(validate_range w BOUNDS.width = true ∧
          validate_range h BOUNDS.height = true)
    | _, _ => True) ∨
  (a.option = "ratio" ∧ ¬validate_ratio a.ratio = true) ∨
  (a.option ≠ "size" ∧ a.option ≠ "ratio") ∨
  ¬validate_hex_color a.color = true

end Placeholder

namespace Placeholder

/-! ### Helper lemmas -/

/-- Unfolding of `validate_range` to its arithmetic meaning. -/
theorem validate_range_iff (v : Int) (b : BoundTuple) :
    validate_range v b = true ↔ b.lower ≤ v ∧ v ≤ b.upper := by
  simp [validate_range]

/-- Characterisation of `placeholder_exists`: the directory exists and
its entry list holds the file name as a regular file. -/
theorem placeholder_exists_iff (w h : Int) (d : DirListing) :
    placeholder_exists w h d = true ↔
      d.isDir = true ∧ (fileName w h, true) ∈ d.entries := by
  rcases d with ⟨dir, es⟩
  cases dir <;> simp [placeholder_exists, List.contains, List.mem_filter]

end Placeholder

namespace Placeholder

/-! ### Claim theorems -/

/-- C8: for every width, height and directory state, `placeholder_exists`
returns true iff the save root exists as a directory containing a regular
file named `{width}_x_{height}.jpg`; when the directory is absent it
returns false (and, being a total function of the listing, cannot
raise). -/
theorem placeholder_exists_charac (w h : Int) (d : DirListing) :
    (placeholder_exists w h d = true ↔
      d.isDir = true ∧ (fileName w h, true) ∈ d.entries) ∧
    (d.isDir = false → placeholder_exists w h d = false) := by
  refine ⟨placeholder_exists_iff w h d, fun habs => ?_⟩
  rcases d with ⟨dir, es⟩
  simp only at habs
  subst habs
  simp [placeholder_exists]

/-- Witness for C8 at a concrete input: an absent directory, as in the
spec's example `placeholder_exists(800, 600, dir)` with `dir` missing. -/
theorem placeholder_exists_charac_witness :
    placeholder_exists 800 600 ⟨false, []⟩ = false :=
  (placeholder_exists_charac 800 600 ⟨false, []⟩).2 rfl

/-- C9: for every list `p` of integers, `validate_ratio` accepts `p` iff
`p` has exactly two elements, both in the inclusive range `[1, 30]`. -/
theorem validate_ratio_charac (p : List Int) :
    validate_ratio (some p) = true ↔
      p.length = 2 ∧ ∀ x ∈ p, 1 ≤ x ∧ x ≤ 30 := by
  by_cases hlen : p.length = 2
  ·  simp [validate_ratio, hlen, validate_range, BOUNDS, List.all_eq_true]
  ·  simp [validate_ratio, hlen]

/-- C1 (counterexample): the spec example claims
`dimmentions_from_ratio((30, 1), 100)` shrinks the base and returns
`(3990, 133)`; the code returns `(3000, 100)`. -/
theorem dims_ratio_30_1_ne_spec :
    dimmentions_from_ratio ⟨30, 1⟩ 100 ≠ (3990, 133) := by decide

/-- C1 (amended): with ratio `(30, 1)` and base `100` neither shrink
branch fires, because `100 * 30 = 3000` does not exceed the width bound
`4000`; the result is width `3000`, height `100`. -/
theorem dims_ratio_30_1_eval :
    dimmentions_from_ratio ⟨30, 1⟩ 100 = (3000, 100) ∧
    ¬(100 * (30 : Int) > BOUNDS.width.upper) := by decide

/-- C7: the blur pass leaves the working bitmap unchanged — for every
bitmap implementation `ops` (in particular, for genuinely blurring ones)
`smoothen_image` returns the generator state it was given, so the bitmap
that `start` saves is exactly the bitmap produced by drawing the cross on
the frame. -/
theorem blur_pass_no_op {B : Type} (ops : PILOps B) (g : ImageGenerator B) :
    smoothen_image ops g = g ∧
    (ImageGenerator.start ops g).2.map Prod.snd =
      (setup_cross ops (setup_frame ops g)).image := by
  refine ⟨rfl, ?_⟩
  show (save_image ops (smoothen_image ops (setup_cross ops (setup_frame ops g)))).map
      Prod.snd = _
  cases hIm : (setup_cross ops (setup_frame ops g)).image <;>
    simp [save_image, smoothen_image, hIm]

end Placeholder

namespace Placeholder

/-- C4: for every ratio with both components at least 1 and every base at
least 1, both dimensions returned by `dimmentions_from_ratio` are at most
4000; the base possibly shrunk for the width axis is the value the height
axis then checks and possibly shrinks, and both final dimensions are
products of that same final base. -/
theorem dims_from_ratio_bounded (w h base : Int)
    (hw : 1 ≤ w) (hh : 1 ≤ h) (_hbase : 1 ≤ base) :
    ∃ finalBase : Int,
      dimmentions_from_ratio ⟨w, h⟩ base = (finalBase * w, finalBase * h) ∧
      finalBase =
        (if (if base * w > 4000 then Int.fdiv 4000 w else base) * h > 4000
         then Int.fdiv 4000 h
         else if base * w > 4000 then Int.fdiv 4000 w else base) ∧
      finalBase * w ≤ 4000 ∧ finalBase * h ≤ 4000 := by
  have hw0 : w ≠ 0 := by omega
  have hh0 : h ≠ 0 := by omega
  have hfw : Int.fdiv 4000 w = 4000 / w := Int.fdiv_eq_ediv 4000 (by omega)
  have hfh : Int.fdiv 4000 h = 4000 / h := Int.fdiv_eq_ediv 4000 (by omega)
  set b1 : Int := if base * w > 4000 then Int.fdiv 4000 w else base with hb1
  set b2 : Int := if b1 * h > 4000 then Int.fdiv 4000 h else b1 with hb2
  have hA : b1 * w ≤ 4000 := by
    rw [hb1]
    split_ifs with hc
    · rw [hfw]; exact Int.ediv_mul_le 4000 hw0
    · omega
  refine ⟨b2, rfl, rfl, ?_, ?_⟩
  · rw [hb2]
    split_ifs with hc2
    · have hlt : 4000 / h < b1 := (Int.ediv_lt_iff_lt_mul (by omega)).2 (by omega)
      rw [hfh]
      calc 4000 / h * w ≤ b1 * w :=
            mul_le_mul_of_nonneg_right (by omega) (by omega)
        _ ≤ 4000 := hA
    · exact hA
  · rw [hb2]
    split_ifs with hc2
    · rw [hfh]; exact Int.ediv_mul_le 4000 hh0
    · omega

/-- Witness for C4 at the concrete input ratio `(50, 1)`, base `100`,
where the width branch fires and shrinks the base to `4000 // 50 = 80`. -/
theorem dims_from_ratio_bounded_witness :
    ∃ finalBase : Int,
      dimmentions_from_ratio ⟨50, 1⟩ 100 = (finalBase * 50, finalBase * 1) ∧
      finalBase =
        (if (if 100 * (50 : Int) > 4000 then Int.fdiv 4000 50 else 100) * 1 > 4000
         then Int.fdiv 4000 1
         else if 100 * (50 : Int) > 4000 then Int.fdiv 4000 50 else 100) ∧
      finalBase * 50 ≤ 4000 ∧ finalBase * 1 ≤ 4000 :=
  dims_from_ratio_bounded 50 1 100 (by decide) (by decide) (by decide)

/-- C10: for every ratio pair accepted by `validate_ratio` and the
default base 100, neither shrink branch of `dimmentions_from_ratio`
fires: the result is exactly `(100 * w, 100 * h)`, both dimensions lie in
`[100, 3000]`, and both satisfy the `[32, 4000]` range check — so the
zero-dimension edge case is unreachable through the validated
command-line path. -/
theorem ratio_mode_no_shrink (w h : Int)
    (hv : validate_ratio (some [w, h]) = true) :
    dimmentions_from_ratio ⟨w, h⟩ 100 = (100 * w, 100 * h) ∧
    100 ≤ 100 * w ∧ 100 * w ≤ 3000 ∧ 100 ≤ 100 * h ∧ 100 * h ≤ 3000 ∧
    validate_range (100 * w) BOUNDS.width = true ∧
    validate_range (100 * h) BOUNDS.height = true := by
  have hb : (1 ≤ w ∧ w ≤ 30) ∧ (1 ≤ h ∧ h ≤ 30) := by
    simpa [validate_ratio, validate_range, BOUNDS] using hv
  have h1 : ¬(100 * w > BOUNDS.width.upper) := by
    show ¬(100 * w > 4000); omega
  have h2 : ¬(100 * h > BOUNDS.height.upper) := by
    show ¬(100 * h > 4000); omega
  refine ⟨?_, by omega, by omega, by omega, by omega, ?_, ?_⟩
  · simp only [dimmentions_from_ratio]
    rw [if_neg h1, if_neg h2]
  · rw [validate_range_iff]; show (32 : Int) ≤ 100 * w ∧ 100 * w ≤ 4000; omega
  · rw [validate_range_iff]; show (32 : Int) ≤ 100 * h ∧ 100 * h ≤ 4000; omega

end Placeholder

namespace Placeholder

/-- Witness for C10 at the concrete validated ratio `(16, 9)` (the
spec's own no-shrink example, resolving to `1600 × 900`). -/
theorem ratio_mode_no_shrink_witness :
    dimmentions_from_ratio ⟨16, 9⟩ 100 = (100 * 16, 100 * 9) ∧
    100 ≤ 100 * (16 : Int) ∧ 100 * (16 : Int) ≤ 3000 ∧
    100 ≤ 100 * (9 : Int) ∧ 100 * (9 : Int) ≤ 3000 ∧
    validate_range (100 * 16) BOUNDS.width = true ∧
    validate_range (100 * 9) BOUNDS.height = true :=
  ratio_mode_no_shrink 16 9 (by decide)

/-- In SIZE mode with a present, in-range width and height, the
dimension-resolution phase succeeds with exactly those dimensions. -/
theorem mainDims_size (w h : Int) (c : String)
    (hw : validate_range w BOUNDS.width = true)
    (hh : validate_range h BOUNDS.height = true) :
    mainDims (sizeArgs w h c) = some (w, h) := by
  have hw1 : 32 ≤ w ∧ w ≤ 4000 := by simpa [validate_range, BOUNDS] using hw
  have hh1 : 32 ≤ h ∧ h ≤ 4000 := by simpa [validate_range, BOUNDS] using hh
  simp [mainDims, sizeArgs, hw, hh]
  omega

/-- C5: when the placeholders directory already holds
`{width}_x_{height}.jpg`, `main` (with any valid requested color)
terminates successfully and writes nothing; and after any successful run
with the same dimensions (under any valid color), a repeated invocation
writes no file. -/
theorem cache_hit_no_write (w h : Int) (c c2 : String) (d d0 : DirListing)
    (hw : validate_range w BOUNDS.width = true)
    (hh : validate_range h BOUNDS.height = true)
    (hc : validate_hex_color c = true)
    (hc2 : validate_hex_color c2 = true)
    (hfile : (fileName w h, true) ∈ d.entries) :
    main (sizeArgs w h c) d = ⟨0, [], ⟨true, d.entries⟩⟩ ∧
    ((main (sizeArgs w h c2) d0).exit = 0 →
      (main (sizeArgs w h c) (main (sizeArgs w h c2) d0).dir).written = []) := by
  have hdims : mainDims (sizeArgs w h c) = some (w, h) := mainDims_size w h c hw hh
  have hdims2 : mainDims (sizeArgs w h c2) = some (w, h) := mainDims_size w h c2 hw hh
  have hpe : ∀ es : List (String × Bool), (fileName w h, true) ∈ es →
      placeholder_exists w h ⟨true, es⟩ = true := by
    intro es hmem
    exact (placeholder_exists_iff w h ⟨true, es⟩).2 ⟨rfl, hmem⟩
  constructor
  · simp only [main]
    rw [hdims]
    simp [sizeArgs, hc, hpe d.entries hfile]
  · intro _
    by_cases hcache : placeholder_exists w h ⟨true, d0.entries⟩ = true
    · have h1 : main (sizeArgs w h c2) d0 = ⟨0, [], ⟨true, d0.entries⟩⟩ := by
        simp only [main]
        rw [hdims2]
        simp [sizeArgs, hc2, hcache]
      rw [h1]
      simp only [main]
      rw [hdims]
      simp [sizeArgs, hc, hcache]
    · have h1 : main (sizeArgs w h c2) d0 =
          ⟨0, [fileName w h], ⟨true, d0.entries ++ [(fileName w h, true)]⟩⟩ := by
        simp only [main]
        rw [hdims2]
        simp [sizeArgs, hc2, hcache]
      rw [h1]
      have hmem : (fileName w h, true) ∈ d0.entries ++ [(fileName w h, true)] := by
        simp
      simp only [main]
      rw [hdims]
      simp [sizeArgs, hc, hpe _ hmem]

/-- Witness for C5 at concrete inputs: dimensions `800 × 600`, colors
`#fff` and `#000`, a directory already holding `800_x_600.jpg`, and a
fresh empty directory for the second-invocation half. -/
theorem cache_hit_no_write_witness :
    main (sizeArgs 800 600 "#fff") ⟨true, [("800_x_600.jpg", true)]⟩ =
      ⟨0, [], ⟨true, [("800_x_600.jpg", true)]⟩⟩ ∧
    ((main (sizeArgs 800 600 "#000") ⟨false, []⟩).exit = 0 →
      (main (sizeArgs 800 600 "#fff")
        (main (sizeArgs 800 600 "#000") ⟨false, []⟩).dir).written = []) :=
  cache_hit_no_write 800 600 "#fff" "#000" ⟨true, [("800_x_600.jpg", true)]⟩
    ⟨false, []⟩ (by decide) (by decide) (by decide) (by decide) (by decide)

/-- C6: whenever any input fails validation — missing or Python-falsy
dimension, dimension out of `[32, 4000]`, malformed or out-of-bound
ratio, unrecognized mode, or malformed color — `main` returns status 1,
writes no file, and leaves the directory untouched (the `mkdir` and the
renderer are reached only after every check has passed). -/
theorem invalid_input_rejected (a : Args) (d : DirListing)
    (hbad : validationFails a) : main a d = ⟨1, [], d⟩ := by
  rcases a with ⟨opt, ow, oh, orat, col⟩
  rcases hbad with ⟨hopt, hfail⟩ | ⟨hopt, hrat⟩ | ⟨h1, h2⟩ | hcol
  · simp only at hopt
    subst hopt
    have hnone : mainDims ⟨"size", ow, oh, orat, col⟩ = none := by
      cases ow with
      | none => simp [mainDims]
      | some w =>
        cases oh with
        | none => simp [mainDims]
        | some h =>
          simp only at hfail
          simp only [mainDims, if_pos rfl]
          rcases hfail with h0 | h0 | h0
          · simp [h0]
          · simp [h0]
          · by_cases hvw : validate_range w BOUNDS.width = true
            · by_cases hvh : validate_range h BOUNDS.height = true
              · exact absurd ⟨hvw, hvh⟩ h0
              · simp only [Bool.not_eq_true] at hvh
                simp [hvw, hvh]
            · simp only [Bool.not_eq_true] at hvw
              simp [hvw]
    simp [main, hnone]
  · simp only at hopt
    subst hopt
    have hratF : validate_ratio orat = false := by
      simpa using hrat
    have hnone : mainDims ⟨"ratio", ow, oh, orat, col⟩ = none := by
      simp [mainDims, hratF]
    simp [main, hnone]
  · simp only at h1 h2
    have hnone : mainDims ⟨opt, ow, oh, orat, col⟩ = none := by
      simp [mainDims, h1, h2]
    simp [main, hnone]
  · have hcolF : validate_hex_color col = false := by simpa using hcol
    cases hmd : mainDims ⟨opt, ow, oh, orat, col⟩ with
    | none => simp [main, hmd]
    | some wh => simp [main, hmd, hcolF]

/-- Witness for C6 at the spec's end-to-end example: `size --width 10
--height 100` (width below the bound 32) against an absent directory. -/
theorem invalid_input_rejected_witness :
    main ⟨"size", some 10, some 100, none, "#96b08a"⟩ ⟨false, []⟩ =
      ⟨1, [], ⟨false, []⟩⟩ :=
  invalid_input_rejected ⟨"size", some 10, some 100, none, "#96b08a"⟩ ⟨false, []⟩
    (Or.inl ⟨rfl, Or.inr (Or.inr (by decide))⟩)

end Placeholder

namespace Placeholder

/-! ### The hex-color regex: characterisation and claims -/

/-- Unfolding of `reFullMatchHex` to its meaning: a leading `#` and then
3, 4, 6, 7 or 8 hex digits. -/
theorem reFullMatchHex_iff (l : List Char) :
    reFullMatchHex l = true ↔
      ∃ ds, l = '#' :: ds ∧ (∀ c ∈ ds, isHexDigit c = true) ∧
        (ds.length = 3 ∨ ds.length = 4 ∨ ds.length = 6 ∨ ds.length = 7 ∨
          ds.length = 8) := by
  cases l with
  | nil => simp [reFullMatchHex]
  | cons c t =>
    simp only [reFullMatchHex, Bool.and_eq_true, beq_iff_eq, Bool.or_eq_true,
      List.all_eq_true, List.cons.injEq]
    constructor
    · rintro ⟨hc, hall, hlen⟩
      exact ⟨t, ⟨hc, rfl⟩, hall, by tauto⟩
    · rintro ⟨ds, ⟨hc, hds⟩, hall, hlen⟩
      subst hds
      exact ⟨hc, hall, by tauto⟩

/-- The length set `{3, 4, 6, 7, 8}` is exactly what the regex structure
produces: a full match is `#` followed by one or two groups of
three-or-four hex digits. -/
theorem reFullMatchHex_iff_groups (l : List Char) :
    reFullMatchHex l = true ↔
      (∃ g, hexGroup g ∧ l = '#' :: g) ∨
      (∃ g1 g2, hexGroup g1 ∧ hexGroup g2 ∧ l = '#' :: (g1 ++ g2)) := by
  rw [reFullMatchHex_iff]
  constructor
  · rintro ⟨ds, rfl, hall, hlen⟩
    rcases hlen with h3 | h4 | h6 | h7 | h8
    · exact Or.inl ⟨ds, ⟨hall, Or.inl h3⟩, rfl⟩
    · exact Or.inl ⟨ds, ⟨hall, Or.inr h4⟩, rfl⟩
    · refine Or.inr ⟨ds.take 3, ds.drop 3,
        ⟨fun c hc => hall c (List.mem_of_mem_take hc), Or.inl ?_⟩,
        ⟨fun c hc => hall c (List.mem_of_mem_drop hc), Or.inl ?_⟩,
        by rw [List.take_append_drop]⟩
      · simp [List.length_take, h6]
      · simp [List.length_drop, h6]
    · refine Or.inr ⟨ds.take 3, ds.drop 3,
        ⟨fun c hc => hall c (List.mem_of_mem_take hc), Or.inl ?_⟩,
        ⟨fun c hc => hall c (List.mem_of_mem_drop hc), Or.inr ?_⟩,
        by rw [List.take_append_drop]⟩
      · simp [List.length_take, h7]
      · simp [List.length_drop, h7]
    · refine Or.inr ⟨ds.take 4, ds.drop 4,
        ⟨fun c hc => hall c (List.mem_of_mem_take hc), Or.inr ?_⟩,
        ⟨fun c hc => hall c (List.mem_of_mem_drop hc), Or.inr ?_⟩,
        by rw [List.take_append_drop]⟩
      · simp [List.length_take, h8]
      · simp [List.length_drop, h8]
  · rintro (⟨g, ⟨hall, hlen⟩, rfl⟩ | ⟨g1, g2, ⟨hall1, hlen1⟩, ⟨hall2, hlen2⟩, rfl⟩)
    · exact ⟨g, rfl, hall, by omega⟩
    · refine ⟨g1 ++ g2, rfl, ?_, ?_⟩
      · intro c hc
        rcases List.mem_append.1 hc with h | h
        · exact hall1 c h
        · exact hall2 c h
      · rw [List.length_append]; omega

/-- A hex digit is not a newline. -/
theorem isHexDigit_newline : isHexDigit '\n' = false := by decide

/-- Characterisation of `validate_hex_color` over arbitrary strings:
accepted iff the string is `#` followed by 3, 4, 6, 7 or 8 hex digits,
possibly followed by one newline (tolerated by the regex end anchor). -/
theorem validate_hex_color_iff (s : String) :
    validate_hex_color s = true ↔
      ∃ ds : List Char,
        (s.data = '#' :: ds ∨ s.data = '#' :: (ds ++ ['\n'])) ∧
        (∀ c ∈ ds, isHexDigit c = true) ∧
        (ds.length = 3 ∨ ds.length = 4 ∨ ds.length = 6 ∨ ds.length = 7 ∨
          ds.length = 8) := by
  unfold validate_hex_color
  by_cases hnl : s.data.getLast? = some '\n'
  · rw [if_pos hnl, reFullMatchHex_iff]
    constructor
    · rintro ⟨ds, hds, hall, hlen⟩
      refine ⟨ds, Or.inr ?_, hall, hlen⟩
      have hrestore := List.dropLast_append_getLast? '\n' hnl
      rw [hds] at hrestore
      rw [← hrestore]
      simp
    · rintro ⟨ds, hcase | hcase, hall, hlen⟩
      · exfalso
        have hmem := List.mem_of_getLast?_eq_some hnl
        rw [hcase] at hmem
        rcases List.mem_cons.1 hmem with h | h
        · exact absurd h.symm (by decide)
        · have hbad := hall _ h
          rw [isHexDigit_newline] at hbad
          exact Bool.false_ne_true hbad
      · refine ⟨ds, ?_, hall, hlen⟩
        rw [hcase]
        have hassoc : ('#' :: (ds ++ ['\n'])) = ('#' :: ds) ++ ['\n'] := by simp
        rw [hassoc, List.dropLast_concat]
  · rw [if_neg hnl, reFullMatchHex_iff]
    constructor
    · rintro ⟨ds, hds, hall, hlen⟩
      exact ⟨ds, Or.inl hds, hall, hlen⟩
    · rintro ⟨ds, hcase | hcase, hall, hlen⟩
      · exact ⟨ds, hcase, hall, hlen⟩
      · exfalso
        apply hnl
        rw [hcase]
        have hassoc : ('#' :: (ds ++ ['\n'])) = ('#' :: ds) ++ ['\n'] := by simp
        rw [hassoc]
        exact List.getLast?_concat _

/-- C2 (counterexample): `validate_hex_color` also accepts seven hex
digits (the regex group of three-or-four digits, repeated twice, can
cover 3+4 characters), and — via Python's end anchor — a trailing
newline; both accepted strings fall outside the claim's `#` plus
3/4/6/8-digit form. -/
theorem hex_color_seven_digit_counterexample :
    (validate_hex_color "#0000000" = true ∧ claimHexSpec "#0000000" = false) ∧
    (validate_hex_color "#fff\n" = true ∧ claimHexSpec "#fff\n" = false) := by
  refine ⟨⟨by decide, by decide⟩, by decide, by decide⟩

/-- C2 (amended): for every string `s`, `validate_hex_color s` is true
iff `s` is `#` followed by exactly 3, 4, 6, 7 or 8 hexadecimal digits,
optionally ending in one extra newline character; in particular it
accepts `#fff`, `#ffff`, `#ffffff`, `#ffffffff` and rejects `fff`,
`#ff`, `#gggggg`. -/
theorem validate_hex_color_charac :
    (∀ s : String,
      validate_hex_color s = true ↔
        ∃ ds : List Char,
          (s.data = '#' :: ds ∨ s.data = '#' :: (ds ++ ['\n'])) ∧
          (∀ c ∈ ds, isHexDigit c = true) ∧
          (ds.length = 3 ∨ ds.length = 4 ∨ ds.length = 6 ∨ ds.length = 7 ∨
            ds.length = 8)) ∧
    validate_hex_color "#fff" = true ∧ validate_hex_color "#ffff" = true ∧
    validate_hex_color "#ffffff" = true ∧
    validate_hex_color "#ffffffff" = true ∧
    validate_hex_color "fff" = false ∧ validate_hex_color "#ff" = false ∧
    validate_hex_color "#gggggg" = false :=
  ⟨validate_hex_color_iff, by decide, by decide, by decide, by decide,
    by decide, by decide, by decide⟩

end Placeholder

namespace Placeholder

/-! ### The fill color -/

/-- Any hex digit value is at most 15 (characters outside the three
digit ranges get the fallback 0). -/
theorem hexDigitVal_le_15 (c : Char) : hexDigitVal c ≤ 15 := by
  unfold hexDigitVal
  split_ifs with h1 h2 h3
  · simp only [Bool.and_eq_true, decide_eq_true_eq] at h1
    have h9 := h1.2
    simp only [Char.le_def, UInt32.le_def, BitVec.le_def, Char.toNat,
      UInt32.toNat] at h9 ⊢
    have e9 : ('9').val.toBitVec.toNat = 57 := by decide
    rw [e9] at h9
    omega
  · simp only [Bool.and_eq_true, decide_eq_true_eq] at h2
    have h9 := h2.2
    simp only [Char.le_def, UInt32.le_def, BitVec.le_def, Char.toNat,
      UInt32.toNat] at h9 ⊢
    have e9 : ('f').val.toBitVec.toNat = 102 := by decide
    rw [e9] at h9
    omega
  · simp only [Bool.and_eq_true, decide_eq_true_eq] at h3
    have h9 := h3.2
    simp only [Char.le_def, UInt32.le_def, BitVec.le_def, Char.toNat,
      UInt32.toNat] at h9 ⊢
    have e9 : ('F').val.toBitVec.toNat = 70 := by decide
    rw [e9] at h9
    omega
  · omega

/-- Masking with `0xFF` is reduction modulo 256. -/
theorem and_255_eq_mod (x : Nat) : x &&& 255 = x % 256 := by
  have h := Nat.and_pow_two_sub_one_eq_mod x 8
  norm_num at h
  exact h

/-- On a six-hex-digit value, the byte slicing of
`ImageGenerator.__init__` recovers exactly the three digit pairs. -/
theorem colorFromInt_six_digits (d1 d2 d3 d4 d5 d6 : Char) :
    colorFromInt (hexListVal [d1, d2, d3, d4, d5, d6]) =
      ⟨16 * hexDigitVal d1 + hexDigitVal d2,
       16 * hexDigitVal d3 + hexDigitVal d4,
       16 * hexDigitVal d5 + hexDigitVal d6⟩ := by
  have b1 := hexDigitVal_le_15 d1
  have b2 := hexDigitVal_le_15 d2
  have b3 := hexDigitVal_le_15 d3
  have b4 := hexDigitVal_le_15 d4
  have b5 := hexDigitVal_le_15 d5
  have b6 := hexDigitVal_le_15 d6
  simp only [hexListVal, List.foldl]
  unfold colorFromInt
  rw [Nat.shiftRight_eq_div_pow, Nat.shiftRight_eq_div_pow, and_255_eq_mod,
    and_255_eq_mod, and_255_eq_mod]
  norm_num
  refine ⟨by omega, by omega, by omega⟩

/-- C3 (counterexample): `#fff` passes validation, the spec says it
denotes the expanded triple `(255, 255, 255)`, but the renderer's fill
color — the byte slicing of the raw parsed value `0xfff` — is
`(0, 15, 255)`: shorthand is not expanded. -/
theorem color_shorthand_not_expanded :
    validate_hex_color "#fff" = true ∧
    specDenotedColor "#fff" = some ⟨255, 255, 255⟩ ∧
    colorFromInt (parsedColor "#fff") = ⟨0, 15, 255⟩ ∧
    colorFromInt (parsedColor "#fff") ≠ ⟨255, 255, 255⟩ := by
  refine ⟨by decide, by decide, by decide, by decide⟩

/-- C3 (amended): for every accepted hex color string, the renderer's
fill color is obtained by parsing the whole digit string as one hex
integer and taking its low three bytes; every channel lies in
`[0, 255]`, and for full 6-digit colors (string length 7) this is
exactly the RGB triple the color denotes — whereas shorthand forms are
not expanded and 8-digit forms lose their two leading digits. -/
theorem renderer_color_low_bytes (s : String)
    (hv : validate_hex_color s = true) :
    (colorFromInt (parsedColor s)).r ≤ 255 ∧
    (colorFromInt (parsedColor s)).g ≤ 255 ∧
    (colorFromInt (parsedColor s)).b ≤ 255 ∧
    (s.data.length = 7 →
      specDenotedColor s = some (colorFromInt (parsedColor s))) := by
  refine ⟨Nat.and_le_right, Nat.and_le_right, Nat.and_le_right, ?_⟩
  intro hlen
  obtain ⟨ds, hcase, hall, hlenset⟩ := (validate_hex_color_iff s).1 hv
  rcases hcase with hd | hd
  · rw [hd] at hlen
    simp only [List.length_cons] at hlen
    have hds6 : ds.length = 6 := by omega
    rcases ds with _ | ⟨d1, _ | ⟨d2, _ | ⟨d3, _ | ⟨d4, _ | ⟨d5, _ | ⟨d6, t⟩⟩⟩⟩⟩⟩ <;>
      simp only [List.length_cons, List.length_nil] at hds6 <;> try omega
    have ht : t = [] := by
      cases t
      · rfl
      · simp at hds6
    subst ht
    have hallb : List.all [d1, d2, d3, d4, d5, d6] isHexDigit = true := by
      rw [List.all_eq_true]
      exact hall
    simp only [specDenotedColor, parsedColor, hd, hallb, if_true]
    rw [colorFromInt_six_digits]
  · rw [hd] at hlen
    simp at hlen
    exfalso
    rcases hlenset with h | h | h | h | h <;> omega

/-- Witness for C3 at the default color `#96b08a` (a full 6-digit
color, so the spec-denoted-triple conjunct applies non-vacuously). -/
theorem renderer_color_low_bytes_witness :
    (colorFromInt (parsedColor "#96b08a")).r ≤ 255 ∧
    (colorFromInt (parsedColor "#96b08a")).g ≤ 255 ∧
    (colorFromInt (parsedColor "#96b08a")).b ≤ 255 ∧
    ("#96b08a".data.length = 7 →
      specDenotedColor "#96b08a" =
        some (colorFromInt (parsedColor "#96b08a"))) :=
  renderer_color_low_bytes "#96b08a" (by decide)

end Placeholder
